import Mathlib

/-!
Shallow embedding of the wordwise-ai slide editor core:
the inline text formatter and style-suggestion application
(`InstagramStyleSlideEditor` in the editor component), the slide
collection lifecycle (add / duplicate / delete with the capacity and
minimum-size guards from the toolbar buttons), and the
`POST /api/projects/[id]/slides` route handler.

Text buffers are modelled as `List Char` (one element per JS string
unit); machine strings in the source are spliced with
`substring` / `trim` / `replace` / `includes` / `endsWith`, which are
embedded below with JS semantics.
-/

namespace Wordwise

/-- JS `s.substring(a, b)`: the units of `s` from index `a` (inclusive)
to `b` (exclusive), clamped to the string bounds. -/
def jsSubstring (s : List Char) (a b : Nat) : List Char :=
  (s.take b).drop a

/-- JS `s.substring(a)`: the units of `s` from index `a` to the end. -/
def jsSubstringFrom (s : List Char) (a : Nat) : List Char :=
  s.drop a

/-- Whitespace stripped by JS `trim` (the ASCII cases that occur here). -/
def isJsSpace (c : Char) : Bool :=
  c == ' ' || c == '\t' || c == '\n' || c == '\r'

/-- JS `s.trim()`: drop whitespace from both ends. -/
def jsTrim (s : List Char) : List Char :=
  ((s.dropWhile isJsSpace).reverse.dropWhile isJsSpace).reverse

/-- JS `s.endsWith(pat)`. -/
def jsEndsWith (s pat : List Char) : Bool :=
  pat.isSuffixOf s

/-- Index of the first occurrence of `pat` in `s` (JS `indexOf`):
`some i` when `pat` occurs first at unit offset `i`, `none` otherwise.
The empty pattern occurs at offset 0. -/
def findSubstrIdx : List Char → List Char → Option Nat
  | s, pat =>
    if pat.isPrefixOf s then some 0
    else
      match s with
      | [] => none
      | _ :: t => (findSubstrIdx t pat).map (· + 1)

/-- JS `s.includes(pat)`. -/
def jsIncludes (s pat : List Char) : Bool :=
  (findSubstrIdx s pat).isSome

/-- JS GetSubstitution for a string pattern: expand the dollar escapes of
the replacement template. `$$` yields a literal dollar, `$&` the matched
substring (for a string pattern, the pattern itself), a dollar followed by
a backquote (`Char.ofNat 96`) the portion of `str` preceding the match,
and a dollar followed by an apostrophe (`Char.ofNat 39`) the portion
following it. A string pattern has no capture groups and no named
captures, so every other dollar (including `$1`..`$99` and a trailing
dollar) stays literal. -/
def getSubstitution (matched str : List Char) (position : Nat) :
    List Char → List Char
  | [] => []
  | [c] => [c]
  | c :: d :: rest =>
    if c = '$' then
      if d = '$' then '$' :: getSubstitution matched str position rest
      else if d = '&' then
        matched ++ getSubstitution matched str position rest
      else if d = Char.ofNat 96 then
        str.take position ++ getSubstitution matched str position rest
      else if d = Char.ofNat 39 then
        str.drop (position + matched.length) ++
          getSubstitution matched str position rest
      else '$' :: getSubstitution matched str position (d :: rest)
    else c :: getSubstitution matched str position (d :: rest)

/-- JS `s.replace(pat, rep)` with a string pattern: replace the first
occurrence of `pat` by `rep` with its dollar escapes expanded
(GetSubstitution); when `pat` does not occur, return `s` unchanged. -/
def jsReplaceFirst (s pat rep : List Char) : List Char :=
  match findSubstrIdx s pat with
  | some i => s.take i ++ getSubstitution pat s i rep ++ s.drop (i + pat.length)
  | none => s

/-- Embeds `handleFormatText` (editor component, lines 92-153): given the
buffer, the selection `[start, stop)` from the textarea, the format name
and the optional `value` argument, return the new buffer and the new
cursor position. Unknown formats leave both unchanged. -/
def handleFormatText (content : List Char) (start stop : Nat)
    (format : String) (value : Option (List Char)) : List Char × Nat :=
  let selectedText := jsSubstring content start stop
  match format with
  | "bold" =>
    if selectedText ≠ [] then
      (jsSubstring content 0 start ++ ['*', '*'] ++ selectedText ++ ['*', '*'] ++
        jsSubstringFrom content stop, stop + 4)
    else
      (jsSubstring content 0 start ++ ['*', '*', '*', '*'] ++
        jsSubstringFrom content stop, start + 2)
  | "italic" =>
    if selectedText ≠ [] then
      (jsSubstring content 0 start ++ ['*'] ++ selectedText ++ ['*'] ++
        jsSubstringFrom content stop, stop + 2)
    else
      (jsSubstring content 0 start ++ ['*', '*'] ++
        jsSubstringFrom content stop, start + 1)
  | "hashtag" =>
    let hashtag := if selectedText = [] then "hashtag".toList else selectedText
    (jsSubstring content 0 start ++ '#' :: hashtag ++ jsSubstringFrom content stop,
      start + hashtag.length + 1)
  | "mention" =>
    let mention := if selectedText = [] then "username".toList else selectedText
    (jsSubstring content 0 start ++ '@' :: mention ++ jsSubstringFrom content stop,
      start + mention.length + 1)
  | "insert" =>
    match value with
    | some v =>
      if v ≠ [] then
        (jsSubstring content 0 start ++ v ++ jsSubstringFrom content stop,
          start + v.length)
      else (content, start)
    | none => (content, start)
  | _ => (content, start)

/-- A style suggestion as consumed by `handleApplyStyleSuggestion`. -/
structure StyleSuggestion where
  type : String
  original : List Char
  suggestion : List Char
deriving DecidableEq

/-- Embeds the buffer computation of `handleApplyStyleSuggestion`
(editor component, lines 155-190); the result is then routed through
`handleContentChange`. -/
def applyStyleSuggestion (content : List Char) (sug : StyleSuggestion) :
    List Char :=
  match sug.type with
  | "emphasis" => jsReplaceFirst content sug.original sug.suggestion
  | "hashtag" | "emoji" | "mention" =>
    let spacing :=
      if jsEndsWith (jsTrim content) ['.'] || jsEndsWith (jsTrim content) ['!'] ||
          jsEndsWith (jsTrim content) ['?'] then [' '] else [' ']
    jsTrim content ++ spacing ++ sug.suggestion
  | "structure" => sug.suggestion
  | _ =>
    if sug.original ≠ [] ∧ jsIncludes content sug.original then
      jsReplaceFirst content sug.original sug.suggestion
    else
      jsTrim content ++ ' ' :: sug.suggestion

/-- A slide record, as stored and as held in the editor's local state
(`Slide` in `@/lib/types`; fields as selected by the API routes). -/
structure Slide where
  id : Nat
  slide_number : Nat
  content : List Char
  char_count : Nat
  title : Option (List Char)
  tone : Option (List Char)
  created_at : Nat
  updated_at : Nat
deriving DecidableEq

/-- A row of the `carousel_projects` table (the fields the slide-creation
route consults). -/
structure ProjectRow where
  id : Nat
  user_id : Nat
deriving DecidableEq

/-- A row of the `slides` table: a slide together with its owning project. -/
structure SlideRow where
  project_id : Nat
  slide : Slide
deriving DecidableEq

/-- The relational store as the route handlers see it. -/
structure Db where
  carousel_projects : List ProjectRow
  slides : List SlideRow
deriving DecidableEq

/-- The JSON body of `POST /api/projects/[id]/slides`; absent fields are
`none`. -/
structure CreateSlideBody where
  slide_number : Option Nat
  content : Option (List Char)
  title : Option (List Char)
  tone : Option (List Char)
deriving DecidableEq

/-- JS `x || d` on an optional number: `undefined` and `0` are falsy. -/
def jsOrNat (x : Option Nat) (d : Nat) : Nat :=
  match x with
  | some n => if n = 0 then d else n
  | none => d

/-- JS `x || null` on an optional string: `undefined` and `""` give `null`. -/
def jsOrNull (x : Option (List Char)) : Option (List Char) :=
  match x with
  | some s => if s = [] then none else some s
  | none => none

/-- The row the route inserts into `slides` (route.ts lines 26-37):
`slide_number || 1`, `content || ""`, `title || null`, `tone || null`,
`char_count = (content || "").length`, with a generated id and
timestamps. -/
def serverCreatedSlide (freshId now : Nat) (body : CreateSlideBody) : Slide :=
  { id := freshId
    slide_number := jsOrNat body.slide_number 1
    content := body.content.getD []
    char_count := (body.content.getD []).length
    title := jsOrNull body.title
    tone := jsOrNull body.tone
    created_at := now
    updated_at := now }

/-- The ownership check (route.ts lines 15-20): select from
`carousel_projects` where `id = pid` and `user_id = uid`. -/
def findProject (db : Db) (pid uid : Nat) : Option ProjectRow :=
  db.carousel_projects.find? (fun p => p.id == pid && p.user_id == uid)

/-- Responses of the slide-creation route. -/
inductive ApiResponse where
  | ok (slide : Slide)
  | notFound
  | unauthorized
  | serverError
deriving DecidableEq

/-- HTTP status of each response (200 for the JSON success body, 404
"Project not found", 401 "Authentication required", 500 otherwise). -/
def ApiResponse.status : ApiResponse → Nat
  | .ok _ => 200
  | .notFound => 404
  | .unauthorized => 401
  | .serverError => 500

/-- Whether the response is a success (JS `response.ok`). -/
def ApiResponse.isOk : ApiResponse → Bool
  | .ok _ => true
  | _ => false

/-- Embeds `POST /api/projects/[id]/slides` (route.ts lines 5-53).
`auth` is the authenticated user (`none` when `requireAuth` throws, which
the handler maps to 401); `freshId`/`now` stand for the generated id and
timestamps; `insertOk` models whether the storage insert succeeds (a
failing insert is mapped to 500 and stores nothing). Returns the response
and the store after the request. -/
def postSlide (db : Db) (auth : Option Nat) (pid : Nat)
    (body : CreateSlideBody) (freshId now : Nat) (insertOk : Bool) :
    ApiResponse × Db :=
  match auth with
  | none => (.unauthorized, db)
  | some userId =>
    match findProject db pid userId with
    | none => (.notFound, db)
    | some _ =>
      if insertOk then
        let slide := serverCreatedSlide freshId now body
        (.ok slide, { db with slides := db.slides ++ [⟨pid, slide⟩] })
      else (.serverError, db)

/-- Modelled from the spec: `addSlide` of the missing `@/lib/store`
appends the slide to the local collection ("appends a new Slide",
"appended locally", spec 4.4). -/
def addSlide (slides : List Slide) (s : Slide) : List Slide :=
  slides ++ [s]

/-- Modelled from the spec: `updateSlide` of the missing `@/lib/store`
replaces the slide with the given id by the updated slide
("synchronously update in-memory slide state", spec 4.2). -/
def updateSlide (slides : List Slide) (id : Nat) (s : Slide) : List Slide :=
  slides.map (fun t => if t.id == id then s else t)

/-- Modelled from the spec: `deleteSlide` of the missing `@/lib/store`
removes the slide with the given id from the local collection ("removes
the slide from local state", spec 4.4). -/
def deleteSlide (slides : List Slide) (id : Nat) : List Slide :=
  slides.eraseP (fun t => t.id == id)

/-- Modelled from the spec: the missing `PUT /api/slides/[id]` route
("Update slide: accepts (slide_id, content, tone)", spec 6; `char_count`
is always recomputed, spec 3). Only the store effect is modelled. -/
def dbUpdateSlide (db : Db) (id : Nat) (content : List Char)
    (tone : Option (List Char)) (now : Nat) : Db :=
  { db with
    slides := db.slides.map (fun r =>
      if r.slide.id == id then
        let s := r.slide
        { r with
          slide :=
            { s with
              content := content
              char_count := content.length
              tone := tone
              updated_at := now } }
      else r) }

/-- Modelled from the spec: the missing `DELETE /api/slides/[id]` route
("Delete slide: accepts (slide_id), idempotent from the caller's
perspective", spec 6). -/
def dbDeleteSlide (db : Db) (id : Nat) : Db :=
  { db with slides := db.slides.eraseP (fun r => r.slide.id == id) }

/-- The editor component's local state: the slide collection and the
active index (`slides` and `currentSlideIndex`). -/
structure EditorState where
  slides : List Slide
  currentSlideIndex : Nat
deriving DecidableEq

/-- The active slide: the sync effect (editor component, lines 51-55)
keeps `currentSlide = slides[currentSlideIndex]` whenever the index is in
range. -/
def EditorState.currentSlide (st : EditorState) : Option Slide :=
  st.slides[st.currentSlideIndex]?

/-- The request body `addNewSlide` posts (lines 199-202):
`slide_number = slides.length + 1`, `content = ""`. -/
def addRequestBody (st : EditorState) : CreateSlideBody :=
  { slide_number := some (st.slides.length + 1)
    content := some []
    title := none
    tone := none }

/-- Embeds `addNewSlide` (editor component, lines 192-213): POST to the
slide-creation route; only when the response is ok, append the returned
slide and move the active index to the previous length. -/
def addNewSlideCore (auth : Option Nat) (pid freshId now : Nat)
    (insertOk : Bool) (st : EditorState) (db : Db) : EditorState × Db :=
  match postSlide db auth pid (addRequestBody st) freshId now insertOk with
  | (.ok slide, db2) =>
    ({ slides := addSlide st.slides slide,
       currentSlideIndex := st.slides.length }, db2)
  | (_, db2) => (st, db2)

/-- `addNewSlide` as reachable through the UI: the Add button is disabled
while `slides.length >= 10` (line 377), so the call is a no-op then. -/
def addNewSlideOp (auth : Option Nat) (pid freshId now : Nat)
    (insertOk : Bool) (st : EditorState) (db : Db) : EditorState × Db :=
  if 10 ≤ st.slides.length then (st, db)
  else addNewSlideCore auth pid freshId now insertOk st db

/-- Embeds `duplicateSlide` (editor component, lines 215-228), guarded by
the Duplicate button's disabled condition
`!currentSlide || slides.length >= 10` (line 388): clone the active slide
with a fresh id, `slide_number = slides.length + 1` and fresh timestamps,
append it and move the active index; no remote call is made. -/
def duplicateSlideOp (freshId now : Nat) (st : EditorState) (db : Db) :
    EditorState × Db :=
  match st.currentSlide with
  | none => (st, db)
  | some cur =>
    if 10 ≤ st.slides.length then (st, db)
    else
      let dup : Slide :=
        { cur with
          id := freshId
          slide_number := st.slides.length + 1
          created_at := now
          updated_at := now }
      ({ slides := addSlide st.slides dup,
         currentSlideIndex := st.slides.length }, db)

/-- Embeds `deleteCurrentSlide` (editor component, lines 230-246): when an
active slide exists and more than one slide remains, request the remote
delete (fire-and-forget), remove the slide from local state and set the
active index to `max(0, currentSlideIndex - 1)` (truncated subtraction on
`Nat`). -/
def deleteCurrentSlideOp (st : EditorState) (db : Db) : EditorState × Db :=
  match st.currentSlide with
  | none => (st, db)
  | some cur =>
    if 1 < st.slides.length then
      ({ slides := deleteSlide st.slides cur.id,
         currentSlideIndex := st.currentSlideIndex - 1 },
       dbDeleteSlide db cur.id)
    else (st, db)

/-- The slide `handleContentChange` writes to local state (editor
component, lines 60-68): new content, `char_count = value.length`,
`updated_at = now`. -/
def contentChangedSlide (s : Slide) (value : List Char) (now : Nat) :
    Slide :=
  { s with content := value, char_count := value.length, updated_at := now }

/-- Embeds `handleContentChange` (editor component, lines 57-90): update
the active slide in local state, then auto-save to the store
(fire-and-forget). -/
def handleContentChangeOp (value : List Char) (now : Nat)
    (st : EditorState) (db : Db) : EditorState × Db :=
  match st.currentSlide with
  | none => (st, db)
  | some cur =>
    let upd := contentChangedSlide cur value now
    ({ st with slides := updateSlide st.slides cur.id upd },
     dbUpdateSlide db cur.id value cur.tone now)

/-- Embeds `handleApplyStyleSuggestion` (editor component, lines 155-190)
as a state operation: the component's `content` buffer is the active
slide's content, and the computed buffer is routed through
`handleContentChange`. -/
def handleApplyStyleSuggestionOp (sug : StyleSuggestion) (now : Nat)
    (st : EditorState) (db : Db) : EditorState × Db :=
  match st.currentSlide with
  | none => (st, db)
  | some cur =>
    handleContentChangeOp (applyStyleSuggestion cur.content sug) now st db

/-- The editor operations the claims quantify over. -/
inductive EditorOp where
  | add (auth : Option Nat) (pid freshId now : Nat) (insertOk : Bool)
  | dup (freshId now : Nat)
  | del
  | edit (value : List Char) (now : Nat)
deriving DecidableEq

/-- Apply one editor operation. -/
def applyEditorOp : EditorOp → EditorState → Db → EditorState × Db
  | .add auth pid freshId now insertOk, st, db =>
    addNewSlideOp auth pid freshId now insertOk st db
  | .dup freshId now, st, db => duplicateSlideOp freshId now st db
  | .del, st, db => deleteCurrentSlideOp st db
  | .edit value now, st, db => handleContentChangeOp value now st db

/-- Apply a sequence of editor operations from left to right. -/
def applyEditorOps (ops : List EditorOp) (st : EditorState) (db : Db) :
    EditorState × Db :=
  ops.foldl (fun s op => applyEditorOp op s.1 s.2) (st, db)

/-- The derived-field invariant of a slide: `char_count` equals the length
of `content`. -/
def SlideWf (s : Slide) : Prop :=
  s.char_count = s.content.length

instance : DecidablePred SlideWf := fun s =>
  decidable_of_iff (s.char_count = s.content.length) Iff.rfl

/-- A sample slide with the given id, used to instantiate the theorems on
concrete states. -/
def sampleSlide (n : Nat) : Slide :=
  { id := n
    slide_number := n + 1
    content := []
    char_count := 0
    title := none
    tone := none
    created_at := 0
    updated_at := 0 }

/-- A sample editor state holding `k` slides with ids `0, ..., k-1`. -/
def sampleState (k : Nat) : EditorState :=
  { slides := (List.range k).map sampleSlide, currentSlideIndex := 0 }

/-- A sample store holding one project with id 7 owned by user 3. -/
def sampleDb : Db :=
  { carousel_projects := [{ id := 7, user_id := 3 }], slides := [] }

/-- Deleting the four bold delimiter characters from a formatted buffer at
their expected offsets: positions `s, s+1` and `e+2, e+3` of the result are
dropped, keeping `[0,s)`, `[s+2, e+2)` and `[e+4, ..)`. -/
def stripBoldDelims (r : List Char) (s e : Nat) : List Char :=
  r.take s ++ (r.take (e + 2)).drop (s + 2) ++ r.drop (e + 4)

lemma jsSubstring_length (B : List Char) (s e : Nat) (he : e ≤ B.length) :
    (jsSubstring B s e).length = e - s := by
  simp [jsSubstring]
  omega

lemma jsSubstring_zero (B : List Char) (s : Nat) :
    jsSubstring B 0 s = B.take s := by
  simp [jsSubstring]

lemma take_append_jsSubstring (B : List Char) (s e : Nat) (hse : s ≤ e) :
    B.take s ++ jsSubstring B s e = B.take e := by
  unfold jsSubstring
  conv_rhs => rw [← List.take_append_drop s (B.take e)]
  rw [List.take_take, Nat.min_eq_left hse]

/-- The buffer produced by the bold branch of `handleFormatText` (the
empty- and non-empty-selection branches agree on this shape, the middle
block being empty in the former). -/
lemma bold_result (B : List Char) (s e : Nat) :
    (handleFormatText B s e "bold" none).1 =
      B.take s ++ ['*', '*'] ++ jsSubstring B s e ++ ['*', '*'] ++ B.drop e := by
  by_cases hne : jsSubstring B s e = []
  · simp [handleFormatText, hne, jsSubstring_zero, jsSubstringFrom]
  · simp [handleFormatText, hne, jsSubstring_zero, jsSubstringFrom]

lemma strip_glue (A M E : List Char) :
    stripBoldDelims (A ++ ['*', '*'] ++ M ++ ['*', '*'] ++ E)
      A.length (A.length + M.length) = A ++ M ++ E := by
  unfold stripBoldDelims
  have h1 : (A ++ ['*', '*'] ++ M ++ ['*', '*'] ++ E).take A.length = A := by
    rw [show A ++ ['*', '*'] ++ M ++ ['*', '*'] ++ E =
          A ++ (['*', '*'] ++ M ++ ['*', '*'] ++ E) by simp [List.append_assoc]]
    exact List.take_left' rfl
  have h2 : ((A ++ ['*', '*'] ++ M ++ ['*', '*'] ++ E).take
      (A.length + M.length + 2)).drop (A.length + 2) = M := by
    rw [show A ++ ['*', '*'] ++ M ++ ['*', '*'] ++ E =
          (A ++ ['*', '*'] ++ M) ++ (['*', '*'] ++ E) by simp [List.append_assoc]]
    rw [List.take_left' (by simp; omega)]
    exact List.drop_left' (by simp)
  have h3 : (A ++ ['*', '*'] ++ M ++ ['*', '*'] ++ E).drop
      (A.length + M.length + 4) = E :=
    List.drop_left' (by simp; omega)
  rw [h1, h2, h3]

/-- C2: for an in-bounds selection, bold wraps the selected substring in
`**` pairs with caret `end + 4`; for an empty selection it inserts `****`
with caret `start + 2`; on "hello world" with selection (0,5) it yields
"**hello** world" with caret 9. -/
theorem bold_format_spec :
    (∀ (B : List Char) (s e : Nat), s ≤ e → e ≤ B.length → s < e →
        handleFormatText B s e "bold" none =
          (B.take s ++ ['*', '*'] ++ (B.take e).drop s ++ ['*', '*'] ++
            B.drop e, e + 4)) ∧
    (∀ (B : List Char) (s : Nat), s ≤ B.length →
        handleFormatText B s s "bold" none =
          (B.take s ++ ['*', '*', '*', '*'] ++ B.drop s, s + 2)) ∧
    handleFormatText "hello world".toList 0 5 "bold" none =
      ("**hello** world".toList, 9) := by
  refine ⟨?_, ?_, by decide⟩
  · intro B s e hse he hlt
    have hne : jsSubstring B s e ≠ [] := by
      intro h
      have := jsSubstring_length B s e he
      rw [h] at this
      simp at this
      omega
    simp [handleFormatText, hne, jsSubstring_zero, jsSubstringFrom, jsSubstring]
    omega
  · intro B s hs
    have hnil : jsSubstring B s s = [] := by
      have h := jsSubstring_length B s s hs
      have h0 : (jsSubstring B s s).length = 0 := by omega
      exact List.eq_nil_of_length_eq_zero h0
    simp [handleFormatText, hnil, jsSubstring_zero, jsSubstringFrom]

/-- C9: for every buffer and in-bounds selection, stripping the four
delimiter characters at their expected offsets from the bold-formatted
buffer reconstructs the original buffer. -/
theorem bold_round_trip (B : List Char) (s e : Nat) (hse : s ≤ e)
    (he : e ≤ B.length) :
    stripBoldDelims (handleFormatText B s e "bold" none).1 s e = B := by
  rw [bold_result B s e]
  have hA : (B.take s).length = s := by simp; omega
  have hM : (jsSubstring B s e).length = e - s := jsSubstring_length B s e he
  have h := strip_glue (B.take s) (jsSubstring B s e) (B.drop e)
  rw [hA, hM, show s + (e - s) = e by omega] at h
  rw [h, show B.take s ++ jsSubstring B s e ++ B.drop e =
        (B.take s ++ jsSubstring B s e) ++ B.drop e by simp [List.append_assoc]]
  rw [take_append_jsSubstring B s e hse, List.take_append_drop]

/-- C7: hashtag and mention with an empty selection insert exactly the
prefixed placeholder at the caret with caret `start + len(placeholder) + 1`;
with a non-empty selection they replace it by the prefixed selected text,
the caret landing immediately after the inserted text. -/
theorem hashtag_mention_spec :
    (∀ (B : List Char) (s : Nat), s ≤ B.length →
        handleFormatText B s s "hashtag" none =
          (B.take s ++ '#' :: "hashtag".toList ++ B.drop s,
            s + "hashtag".toList.length + 1)) ∧
    (∀ (B : List Char) (s : Nat), s ≤ B.length →
        handleFormatText B s s "mention" none =
          (B.take s ++ '@' :: "username".toList ++ B.drop s,
            s + "username".toList.length + 1)) ∧
    (∀ (B : List Char) (s e : Nat), s < e → e ≤ B.length →
        handleFormatText B s e "hashtag" none =
          (B.take s ++ '#' :: jsSubstring B s e ++ B.drop e,
            s + (jsSubstring B s e).length + 1) ∧
          s + (jsSubstring B s e).length + 1 = e + 1) ∧
    (∀ (B : List Char) (s e : Nat), s < e → e ≤ B.length →
        handleFormatText B s e "mention" none =
          (B.take s ++ '@' :: jsSubstring B s e ++ B.drop e,
            s + (jsSubstring B s e).length + 1) ∧
          s + (jsSubstring B s e).length + 1 = e + 1) := by
  have hnil : ∀ (B : List Char) (s : Nat), s ≤ B.length →
      jsSubstring B s s = [] := by
    intro B s hs
    have h := jsSubstring_length B s s hs
    have h0 : (jsSubstring B s s).length = 0 := by omega
    exact List.eq_nil_of_length_eq_zero h0
  have hne : ∀ (B : List Char) (s e : Nat), s < e → e ≤ B.length →
      jsSubstring B s e ≠ [] := by
    intro B s e hlt he h
    have := jsSubstring_length B s e he
    rw [h] at this
    simp at this
    omega
  refine ⟨?_, ?_, ?_, ?_⟩
  · intro B s hs
    simp [handleFormatText, hnil B s hs, jsSubstring_zero, jsSubstringFrom]
  · intro B s hs
    simp [handleFormatText, hnil B s hs, jsSubstring_zero, jsSubstringFrom]
  · intro B s e hlt he
    have h := jsSubstring_length B s e he
    refine ⟨?_, by omega⟩
    simp [handleFormatText, hne B s e hlt he, jsSubstring_zero, jsSubstringFrom]
  · intro B s e hlt he
    have h := jsSubstring_length B s e he
    refine ⟨?_, by omega⟩
    simp [handleFormatText, hne B s e hlt he, jsSubstring_zero, jsSubstringFrom]

/-- C8: applying a hashtag, emoji or mention style suggestion appends the
suggestion to the trimmed buffer with exactly one separating space,
independently of any trailing punctuation. -/
theorem style_append_one_space (B : List Char) (sug : StyleSuggestion)
    (h : sug.type = "hashtag" ∨ sug.type = "emoji" ∨ sug.type = "mention") :
    applyStyleSuggestion B sug = jsTrim B ++ ' ' :: sug.suggestion := by
  obtain ⟨ty, o, sg⟩ := sug
  rcases h with h | h | h <;>
    (simp only at h; subst h; simp [applyStyleSuggestion])

lemma getSubstitution_no_dollar (matched str : List Char) (position : Nat) :
    ∀ (rep : List Char), '$' ∉ rep →
      getSubstitution matched str position rep = rep
  | [], _ => rfl
  | [c], _ => rfl
  | c :: d :: rest, h => by
    have hc : c ≠ '$' := fun hEq => h (hEq ▸ List.mem_cons_self c (d :: rest))
    have htail : '$' ∉ d :: rest := fun hm => h (List.mem_cons_of_mem c hm)
    simp only [getSubstitution, if_neg hc]
    rw [getSubstitution_no_dollar matched str position (d :: rest) htail]

lemma findSubstrIdx_empty_pat (B : List Char) :
    findSubstrIdx B [] = some 0 := by
  unfold findSubstrIdx
  cases B <;> simp [List.isPrefixOf]

/-- Counterexample to C10 as stated: for the emphasis suggestion with
empty `original` and suggestion text dollar-apostrophe (JS `$'`, the
portion of the buffer following the match), JS `replace` expands the
escape, so the program yields "worldworld" on buffer "world", not
the suggestion text prepended to the buffer. -/
theorem emphasis_dollar_counterexample :
    applyStyleSuggestion "world".toList
        ⟨"emphasis", [], ['$', Char.ofNat 39]⟩ ≠
      ['$', Char.ofNat 39] ++ "world".toList := by
  decide

/-- C10 (amended): an emphasis suggestion whose `original` is empty
prepends the dollar-expanded suggestion text (GetSubstitution of the
suggestion for the empty match at offset 0) to the buffer; in particular,
whenever the suggestion contains no dollar character it prepends exactly
the suggestion text, and the result is routed through the content-change
pipeline, updating the active slide's content accordingly. -/
theorem emphasis_empty_original_prepends :
    (∀ (B : List Char) (sug : StyleSuggestion),
        sug.type = "emphasis" → sug.original = [] →
        applyStyleSuggestion B sug =
          getSubstitution [] B 0 sug.suggestion ++ B) ∧
    (∀ (B : List Char) (sug : StyleSuggestion),
        sug.type = "emphasis" → sug.original = [] →
        '$' ∉ sug.suggestion →
        applyStyleSuggestion B sug = sug.suggestion ++ B) ∧
    (∀ (sug : StyleSuggestion) (now : Nat) (st : EditorState) (db : Db)
        (cur : Slide),
        sug.type = "emphasis" → sug.original = [] →
        '$' ∉ sug.suggestion →
        st.currentSlide = some cur →
        (handleApplyStyleSuggestionOp sug now st db).1.slides =
          updateSlide st.slides cur.id
            (contentChangedSlide cur (sug.suggestion ++ cur.content) now)) := by
  have key : ∀ (B : List Char) (sug : StyleSuggestion),
      sug.type = "emphasis" → sug.original = [] →
      applyStyleSuggestion B sug =
        getSubstitution [] B 0 sug.suggestion ++ B := by
    intro B sug h1 h2
    obtain ⟨ty, o, sg⟩ := sug
    simp only at h1 h2
    subst h1
    subst h2
    simp [applyStyleSuggestion, jsReplaceFirst, findSubstrIdx_empty_pat]
  have keyNoDollar : ∀ (B : List Char) (sug : StyleSuggestion),
      sug.type = "emphasis" → sug.original = [] →
      '$' ∉ sug.suggestion →
      applyStyleSuggestion B sug = sug.suggestion ++ B := by
    intro B sug h1 h2 h3
    rw [key B sug h1 h2, getSubstitution_no_dollar [] B 0 sug.suggestion h3]
  refine ⟨key, keyNoDollar, ?_⟩
  intro sug now st db cur h1 h2 h3 hcur
  simp [handleApplyStyleSuggestionOp, hcur, handleContentChangeOp,
    keyNoDollar cur.content sug h1 h2 h3]

lemma postSlide_none (db : Db) (pid : Nat) (body : CreateSlideBody)
    (fid now : Nat) (iok : Bool) :
    postSlide db none pid body fid now iok = (.unauthorized, db) := rfl

lemma postSlide_no_project {db : Db} {pid u : Nat} (body : CreateSlideBody)
    (fid now : Nat) (iok : Bool) (hfp : findProject db pid u = none) :
    postSlide db (some u) pid body fid now iok = (.notFound, db) := by
  simp only [postSlide, hfp]

lemma postSlide_insert {db : Db} {pid u : Nat} (body : CreateSlideBody)
    (fid now : Nat) {p : ProjectRow} (hfp : findProject db pid u = some p) :
    postSlide db (some u) pid body fid now true =
      (.ok (serverCreatedSlide fid now body),
        { db with
          slides := db.slides ++ [⟨pid, serverCreatedSlide fid now body⟩] }) := by
  simp [postSlide, hfp]

lemma postSlide_insert_fail {db : Db} {pid u : Nat} (body : CreateSlideBody)
    (fid now : Nat) {p : ProjectRow} (hfp : findProject db pid u = some p) :
    postSlide db (some u) pid body fid now false = (.serverError, db) := by
  simp [postSlide, hfp]

lemma postSlide_ok_slide {db : Db} {auth : Option Nat} {pid : Nat}
    {body : CreateSlideBody} {fid now : Nat} {iok : Bool} {s : Slide}
    {db2 : Db}
    (h : postSlide db auth pid body fid now iok = (.ok s, db2)) :
    s = serverCreatedSlide fid now body := by
  unfold postSlide at h
  split at h
  · simp at h
  · split at h
    · simp at h
    · split at h
      · simp at h
        exact h.1.symm
      · simp at h

lemma applyEditorOp_cap (op : EditorOp) (st : EditorState) (db : Db)
    (h : st.slides.length ≤ 10) :
    ((applyEditorOp op st db).1).slides.length ≤ 10 := by
  cases op with
  | add auth pid fid now iok =>
    by_cases h10 : 10 ≤ st.slides.length
    · simpa [applyEditorOp, addNewSlideOp, h10] using h
    · simp only [applyEditorOp, addNewSlideOp, if_neg h10]
      unfold addNewSlideCore
      rcases hps : postSlide db auth pid (addRequestBody st) fid now iok
        with ⟨r, db2⟩
      cases r <;> simp [addSlide] <;> omega
  | dup fid now =>
    cases hc : st.currentSlide with
    | none => simpa [applyEditorOp, duplicateSlideOp, hc] using h
    | some cur =>
      by_cases h10 : 10 ≤ st.slides.length
      · simpa [applyEditorOp, duplicateSlideOp, hc, h10] using h
      · simp [applyEditorOp, duplicateSlideOp, hc, h10, addSlide]
        omega
  | del =>
    cases hc : st.currentSlide with
    | none => simpa [applyEditorOp, deleteCurrentSlideOp, hc] using h
    | some cur =>
      by_cases h1 : 1 < st.slides.length
      · simp only [applyEditorOp, deleteCurrentSlideOp, hc, if_pos h1]
        have hle := List.length_eraseP_le (p := fun t => t.id == cur.id)
          st.slides
        simp only [deleteSlide]
        omega
      · simpa [applyEditorOp, deleteCurrentSlideOp, hc, h1] using h
  | edit value now =>
    cases hc : st.currentSlide with
    | none => simpa [applyEditorOp, handleContentChangeOp, hc] using h
    | some cur =>
      simpa [applyEditorOp, handleContentChangeOp, hc, updateSlide] using h

lemma applyEditorOps_cons (op : EditorOp) (ops : List EditorOp)
    (st : EditorState) (db : Db) :
    applyEditorOps (op :: ops) st db =
      applyEditorOps ops (applyEditorOp op st db).1
        (applyEditorOp op st db).2 := by
  simp [applyEditorOps]

lemma applyEditorOps_cap (ops : List EditorOp) (st : EditorState) (db : Db)
    (h : st.slides.length ≤ 10) :
    ((applyEditorOps ops st db).1).slides.length ≤ 10 := by
  induction ops generalizing st db with
  | nil => simpa [applyEditorOps] using h
  | cons op rest ih =>
    rw [applyEditorOps_cons]
    exact ih _ _ (applyEditorOp_cap op st db h)

/-- C1: the slide collection never exceeds 10 slides under any sequence of
editor operations; add and duplicate are exact no-ops (local state and
store unchanged) once 10 slides are present; and an accepted add appends a
slide with `slide_number = length + 1` and empty content and moves the
active index to the previous length. -/
theorem slide_cap_invariant :
    (∀ (ops : List EditorOp) (st : EditorState) (db : Db),
        st.slides.length ≤ 10 →
        ((applyEditorOps ops st db).1).slides.length ≤ 10) ∧
    (∀ (auth : Option Nat) (pid fid now : Nat) (iok : Bool)
        (st : EditorState) (db : Db), 10 ≤ st.slides.length →
        applyEditorOp (.add auth pid fid now iok) st db = (st, db) ∧
        applyEditorOp (.dup fid now) st db = (st, db)) ∧
    (∀ (u pid fid now : Nat) (st : EditorState) (db : Db) (p : ProjectRow),
        st.slides.length < 10 → findProject db pid u = some p →
        (applyEditorOp (.add (some u) pid fid now true) st db).1.slides =
          st.slides ++ [serverCreatedSlide fid now (addRequestBody st)] ∧
        (serverCreatedSlide fid now (addRequestBody st)).slide_number =
          st.slides.length + 1 ∧
        (serverCreatedSlide fid now (addRequestBody st)).content = [] ∧
        (applyEditorOp (.add (some u) pid fid now true) st db).1.currentSlideIndex =
          st.slides.length) := by
  refine ⟨applyEditorOps_cap, ?_, ?_⟩
  · intro auth pid fid now iok st db h10
    constructor
    · simp [applyEditorOp, addNewSlideOp, h10]
    · cases hc : st.currentSlide with
      | none => simp [applyEditorOp, duplicateSlideOp, hc]
      | some cur => simp [applyEditorOp, duplicateSlideOp, hc, h10]
  · intro u pid fid now st db p hlt hfp
    have h10 : ¬ 10 ≤ st.slides.length := by omega
    simp only [applyEditorOp, addNewSlideOp, if_neg h10]
    unfold addNewSlideCore
    rw [postSlide_insert (addRequestBody st) fid now hfp]
    refine ⟨by simp [addSlide], ?_, by simp [serverCreatedSlide, addRequestBody],
      by simp⟩
    simp [serverCreatedSlide, addRequestBody, jsOrNat]

/-- C3: `addNewSlide` updates local state only when the create request
succeeds: on any non-ok response the slide collection and the active index
are left exactly as they were, and on success the returned slide is
appended and the active index moves to the previous length. -/
theorem add_updates_local_only_on_success :
    (∀ (auth : Option Nat) (pid fid now : Nat) (iok : Bool)
        (st : EditorState) (db : Db),
        (postSlide db auth pid (addRequestBody st) fid now iok).1.isOk = false →
        (addNewSlideCore auth pid fid now iok st db).1 = st) ∧
    (∀ (auth : Option Nat) (pid fid now : Nat) (iok : Bool)
        (st : EditorState) (db : Db) (s : Slide) (db2 : Db),
        postSlide db auth pid (addRequestBody st) fid now iok = (.ok s, db2) →
        (addNewSlideCore auth pid fid now iok st db).1.slides =
          st.slides ++ [s] ∧
        (addNewSlideCore auth pid fid now iok st db).1.currentSlideIndex =
          st.slides.length) := by
  constructor
  · intro auth pid fid now iok st db hfail
    unfold addNewSlideCore
    rcases hps : postSlide db auth pid (addRequestBody st) fid now iok
      with ⟨r, db2⟩
    rw [hps] at hfail
    cases r <;> simp_all [ApiResponse.isOk]
  · intro auth pid fid now iok st db s db2 hok
    unfold addNewSlideCore
    rw [hok]
    simp [addSlide]

lemma deleteSlide_at_index {l : List Slide} {i : Nat} {c : Slide}
    (hc : l[i]? = some c) (hnd : (l.map Slide.id).Nodup) :
    deleteSlide l c.id = l.take i ++ l.drop (i + 1) := by
  obtain ⟨hi, hgetEq⟩ := List.getElem?_eq_some.mp hc
  have hdecomp : l = l.take i ++ c :: l.drop (i + 1) := by
    conv_lhs => rw [← List.take_append_drop i l]
    rw [List.drop_eq_getElem_cons hi, hgetEq]
  have hnotmem : c.id ∉ (l.take i).map Slide.id := by
    have hmap : l.map Slide.id =
        (l.take i).map Slide.id ++ c.id :: (l.drop (i + 1)).map Slide.id := by
      conv_lhs => rw [hdecomp]
      simp
    rw [hmap] at hnd
    have hmid := List.nodup_middle.mp hnd
    have hnotin := (List.nodup_cons.mp hmid).1
    intro hmem
    exact hnotin (List.mem_append.mpr (Or.inl hmem))
  have hpre : ∀ b ∈ l.take i, ¬((fun t => t.id == c.id) b = true) := by
    intro b hb
    simp only [beq_iff_eq]
    intro hEq
    exact hnotmem (hEq ▸ List.mem_map_of_mem Slide.id hb)
  unfold deleteSlide
  conv_lhs => rw [hdecomp]
  rw [List.eraseP_append_right _ hpre]
  simp

/-- C4: delete is a no-op when exactly one slide remains; with more than
one slide and a valid active index it removes the active slide and sets
the index to `max(0, previous - 1)`, which stays within bounds. -/
theorem delete_slide_spec :
    (∀ (st : EditorState) (db : Db), st.slides.length = 1 →
        deleteCurrentSlideOp st db = (st, db)) ∧
    (∀ (st : EditorState) (db : Db) (cur : Slide),
        1 < st.slides.length →
        st.currentSlide = some cur →
        (st.slides.map Slide.id).Nodup →
        (deleteCurrentSlideOp st db).1.slides =
          st.slides.take st.currentSlideIndex ++
            st.slides.drop (st.currentSlideIndex + 1) ∧
        (deleteCurrentSlideOp st db).1.currentSlideIndex =
          st.currentSlideIndex - 1 ∧
        (deleteCurrentSlideOp st db).1.currentSlideIndex <
          (deleteCurrentSlideOp st db).1.slides.length) := by
  constructor
  · intro st db hlen
    cases hc : st.currentSlide with
    | none => simp [deleteCurrentSlideOp, hc]
    | some cur => simp [deleteCurrentSlideOp, hc, hlen]
  · intro st db cur h1 hcur hnd
    have hcur' : st.slides[st.currentSlideIndex]? = some cur := hcur
    have hidx : st.currentSlideIndex < st.slides.length := by
      by_contra hge
      push_neg at hge
      rw [List.getElem?_eq_none hge] at hcur'
      exact Option.noConfusion hcur'
    have hdel := deleteSlide_at_index hcur' hnd
    simp only [deleteCurrentSlideOp, hcur, if_pos h1]
    refine ⟨hdel, ?_, ?_⟩
    · simp
    · simp only [hdel, List.length_append, List.length_take, List.length_drop]
      omega

/-- C5: the slide-creation route answers every request whose caller does
not own the target project (including requests for absent projects) with
the same not-found response, answers unauthenticated requests with a
distinct unauthorized response, and only inserts a row when the ownership
check succeeds. -/
theorem create_slide_access_control :
    (∀ (db : Db) (u pid : Nat) (body : CreateSlideBody) (fid now : Nat)
        (iok : Bool),
        (∀ p ∈ db.carousel_projects, ¬(p.id = pid ∧ p.user_id = u)) →
        postSlide db (some u) pid body fid now iok = (.notFound, db)) ∧
    (∀ (db : Db) (pid : Nat) (body : CreateSlideBody) (fid now : Nat)
        (iok : Bool),
        postSlide db none pid body fid now iok = (.unauthorized, db)) ∧
    (ApiResponse.notFound.status = 404 ∧
      ApiResponse.unauthorized.status = 401 ∧
      ApiResponse.unauthorized ≠ ApiResponse.notFound) ∧
    (∀ (db : Db) (auth : Option Nat) (pid : Nat) (body : CreateSlideBody)
        (fid now : Nat) (iok : Bool),
        (postSlide db auth pid body fid now iok).2.slides ≠ db.slides →
        ∃ u p, auth = some u ∧ findProject db pid u = some p) := by
  refine ⟨?_, ?_, ?hst, ?_⟩
  case hst => exact ⟨rfl, rfl, by decide⟩
  · intro db u pid body fid now iok hno
    have hfp : findProject db pid u = none := by
      unfold findProject
      rw [List.find?_eq_none]
      intro x hx
      simp only [Bool.and_eq_true, beq_iff_eq, not_and]
      intro hid huid
      exact hno x hx ⟨hid, huid⟩
    exact postSlide_no_project body fid now iok hfp
  · intro db pid body fid now iok
    exact postSlide_none db pid body fid now iok
  · intro db auth pid body fid now iok hch
    cases auth with
    | none =>
      rw [postSlide_none] at hch
      simp at hch
    | some u =>
      cases hfp : findProject db pid u with
      | none =>
        rw [postSlide_no_project body fid now iok hfp] at hch
        simp at hch
      | some p => exact ⟨u, p, rfl, hfp⟩

/-- C6: slide creation establishes `char_count = length content`, the
content-change pipeline re-establishes it on every mutation, and every
editor operation preserves it across the whole collection: `char_count`
is never set independently of `content`. -/
theorem char_count_tracks_content :
    (∀ (fid now : Nat) (body : CreateSlideBody),
        SlideWf (serverCreatedSlide fid now body)) ∧
    (∀ (s : Slide) (value : List Char) (now : Nat),
        SlideWf (contentChangedSlide s value now)) ∧
    (∀ (op : EditorOp) (st : EditorState) (db : Db),
        (∀ s ∈ st.slides, SlideWf s) →
        ∀ s ∈ (applyEditorOp op st db).1.slides, SlideWf s) := by
  refine ⟨fun fid now body => rfl, fun s value now => rfl, ?_⟩
  intro op st db hwf s hs
  cases op with
  | add auth pid fid now iok =>
    by_cases h10 : 10 ≤ st.slides.length
    · simp only [applyEditorOp, addNewSlideOp, if_pos h10] at hs
      exact hwf s hs
    · simp only [applyEditorOp, addNewSlideOp, if_neg h10] at hs
      unfold addNewSlideCore at hs
      rcases hps : postSlide db auth pid (addRequestBody st) fid now iok
        with ⟨r, db2⟩
      rw [hps] at hs
      cases r with
      | ok slide =>
        simp only [addSlide] at hs
        rcases List.mem_append.mp hs with hmem | hmem
        · exact hwf s hmem
        · have : s = slide := by simpa using hmem
          rw [this, postSlide_ok_slide hps]
          rfl
      | notFound => exact hwf s hs
      | unauthorized => exact hwf s hs
      | serverError => exact hwf s hs
  | dup fid now =>
    cases hc : st.currentSlide with
    | none =>
      simp only [applyEditorOp, duplicateSlideOp, hc] at hs
      exact hwf s hs
    | some cur =>
      by_cases h10 : 10 ≤ st.slides.length
      · simp only [applyEditorOp, duplicateSlideOp, hc, if_pos h10] at hs
        exact hwf s hs
      · simp only [applyEditorOp, duplicateSlideOp, hc, if_neg h10,
          addSlide] at hs
        rcases List.mem_append.mp hs with hmem | hmem
        · exact hwf s hmem
        · have hcurmem : cur ∈ st.slides := List.getElem?_mem hc
          have hcwf := hwf cur hcurmem
          have hse : s = { cur with
              id := fid
              slide_number := st.slides.length + 1
              created_at := now
              updated_at := now } := by simpa using hmem
          rw [hse]
          exact hcwf
  | del =>
    cases hc : st.currentSlide with
    | none =>
      simp only [applyEditorOp, deleteCurrentSlideOp, hc] at hs
      exact hwf s hs
    | some cur =>
      by_cases h1 : 1 < st.slides.length
      · simp only [applyEditorOp, deleteCurrentSlideOp, hc, if_pos h1,
          deleteSlide] at hs
        exact hwf s (List.mem_of_mem_eraseP hs)
      · simp only [applyEditorOp, deleteCurrentSlideOp, hc, if_neg h1] at hs
        exact hwf s hs
  | edit value now =>
    cases hc : st.currentSlide with
    | none =>
      simp only [applyEditorOp, handleContentChangeOp, hc] at hs
      exact hwf s hs
    | some cur =>
      simp only [applyEditorOp, handleContentChangeOp, hc, updateSlide] at hs
      rcases List.mem_map.mp hs with ⟨t, ht, hft⟩
      by_cases hid : (t.id == cur.id) = true
      · rw [if_pos hid] at hft
        rw [← hft]
        rfl
      · rw [if_neg hid] at hft
        rw [← hft]
        exact hwf t ht

/-- Witness for `bold_format_spec` on "hello world" with selections (0,5)
and (3,3). -/
theorem bold_format_spec_witness :
    ((0 : Nat) ≤ 5 ∧ 5 ≤ "hello world".toList.length ∧ 0 < 5 ∧
      handleFormatText "hello world".toList 0 5 "bold" none =
        ("hello world".toList.take 0 ++ ['*', '*'] ++
          ("hello world".toList.take 5).drop 0 ++ ['*', '*'] ++
          "hello world".toList.drop 5, 5 + 4)) ∧
    ((3 : Nat) ≤ "abc".toList.length ∧
      handleFormatText "abc".toList 3 3 "bold" none =
        ("abc".toList.take 3 ++ ['*', '*', '*', '*'] ++ "abc".toList.drop 3,
          3 + 2)) :=
  ⟨⟨by decide, by decide, by decide,
      bold_format_spec.1 "hello world".toList 0 5 (by decide) (by decide)
        (by decide)⟩,
    ⟨by decide, bold_format_spec.2.1 "abc".toList 3 (by decide)⟩⟩

/-- Witness for `bold_round_trip` on "hello world" with selection (0,5). -/
theorem bold_round_trip_witness :
    (0 : Nat) ≤ 5 ∧ 5 ≤ "hello world".toList.length ∧
    stripBoldDelims (handleFormatText "hello world".toList 0 5 "bold" none).1
      0 5 = "hello world".toList :=
  ⟨by decide, by decide,
    bold_round_trip "hello world".toList 0 5 (by decide) (by decide)⟩

/-- Witness for `hashtag_mention_spec` on "abcd" with selections (2,2) and
(1,3). -/
theorem hashtag_mention_spec_witness :
    ((2 : Nat) ≤ "abcd".toList.length ∧
      handleFormatText "abcd".toList 2 2 "hashtag" none =
        ("abcd".toList.take 2 ++ '#' :: "hashtag".toList ++
          "abcd".toList.drop 2, 2 + "hashtag".toList.length + 1)) ∧
    ((2 : Nat) ≤ "abcd".toList.length ∧
      handleFormatText "abcd".toList 2 2 "mention" none =
        ("abcd".toList.take 2 ++ '@' :: "username".toList ++
          "abcd".toList.drop 2, 2 + "username".toList.length + 1)) ∧
    ((1 : Nat) < 3 ∧ 3 ≤ "abcd".toList.length ∧
      (handleFormatText "abcd".toList 1 3 "hashtag" none =
        ("abcd".toList.take 1 ++ '#' :: jsSubstring "abcd".toList 1 3 ++
          "abcd".toList.drop 3,
          1 + (jsSubstring "abcd".toList 1 3).length + 1) ∧
        1 + (jsSubstring "abcd".toList 1 3).length + 1 = 3 + 1)) ∧
    ((1 : Nat) < 3 ∧ 3 ≤ "abcd".toList.length ∧
      (handleFormatText "abcd".toList 1 3 "mention" none =
        ("abcd".toList.take 1 ++ '@' :: jsSubstring "abcd".toList 1 3 ++
          "abcd".toList.drop 3,
          1 + (jsSubstring "abcd".toList 1 3).length + 1) ∧
        1 + (jsSubstring "abcd".toList 1 3).length + 1 = 3 + 1)) :=
  ⟨⟨by decide, hashtag_mention_spec.1 "abcd".toList 2 (by decide)⟩,
    ⟨by decide, hashtag_mention_spec.2.1 "abcd".toList 2 (by decide)⟩,
    ⟨by decide, by decide,
      hashtag_mention_spec.2.2.1 "abcd".toList 1 3 (by decide) (by decide)⟩,
    ⟨by decide, by decide,
      hashtag_mention_spec.2.2.2 "abcd".toList 1 3 (by decide) (by decide)⟩⟩

/-- Witness for `style_append_one_space` on a buffer with trailing
punctuation and whitespace. -/
theorem style_append_one_space_witness :
    ((⟨"hashtag", [], "#new".toList⟩ : StyleSuggestion).type = "hashtag" ∨
      (⟨"hashtag", [], "#new".toList⟩ : StyleSuggestion).type = "emoji" ∨
      (⟨"hashtag", [], "#new".toList⟩ : StyleSuggestion).type = "mention") ∧
    applyStyleSuggestion "hey there!  ".toList
        ⟨"hashtag", [], "#new".toList⟩ =
      jsTrim "hey there!  ".toList ++ ' ' :: "#new".toList :=
  ⟨Or.inl rfl,
    style_append_one_space "hey there!  ".toList
      ⟨"hashtag", [], "#new".toList⟩ (Or.inl rfl)⟩

/-- Witness for `emphasis_empty_original_prepends` on buffer "world" and
an editor state with one slide, with a dollar-escaped and a dollar-free
suggestion. -/
theorem emphasis_empty_original_prepends_witness :
    (applyStyleSuggestion "world".toList
        ⟨"emphasis", [], ['$', Char.ofNat 39]⟩ =
      getSubstitution [] "world".toList 0 ['$', Char.ofNat 39] ++
        "world".toList) ∧
    ((⟨"emphasis", [], "Hi ".toList⟩ : StyleSuggestion).type = "emphasis" ∧
      (⟨"emphasis", [], "Hi ".toList⟩ : StyleSuggestion).original = [] ∧
      '$' ∉ ("Hi ".toList) ∧
      applyStyleSuggestion "world".toList ⟨"emphasis", [], "Hi ".toList⟩ =
        "Hi ".toList ++ "world".toList) ∧
    ((sampleState 1).currentSlide = some (sampleSlide 0) ∧
      (handleApplyStyleSuggestionOp ⟨"emphasis", [], "Hi ".toList⟩ 4
          (sampleState 1) sampleDb).1.slides =
        updateSlide (sampleState 1).slides (sampleSlide 0).id
          (contentChangedSlide (sampleSlide 0)
            ("Hi ".toList ++ (sampleSlide 0).content) 4)) :=
  ⟨emphasis_empty_original_prepends.1 "world".toList
      ⟨"emphasis", [], ['$', Char.ofNat 39]⟩ rfl rfl,
    ⟨rfl, rfl, by decide,
      emphasis_empty_original_prepends.2.1 "world".toList
        ⟨"emphasis", [], "Hi ".toList⟩ rfl rfl (by decide)⟩,
    ⟨by decide,
      emphasis_empty_original_prepends.2.2 ⟨"emphasis", [], "Hi ".toList⟩ 4
        (sampleState 1) sampleDb (sampleSlide 0) rfl rfl (by decide)
        (by decide)⟩⟩

/-- Witness for `slide_cap_invariant` on concrete states with 1 and 10
slides. -/
theorem slide_cap_invariant_witness :
    ((sampleState 1).slides.length ≤ 10 ∧
      ((applyEditorOps [.dup 100 0, .dup 101 0, .add (some 3) 7 102 0 true]
          (sampleState 1) sampleDb).1).slides.length ≤ 10) ∧
    (10 ≤ (sampleState 10).slides.length ∧
      (applyEditorOp (.add (some 3) 7 200 0 true) (sampleState 10) sampleDb =
          (sampleState 10, sampleDb) ∧
        applyEditorOp (.dup 200 0) (sampleState 10) sampleDb =
          (sampleState 10, sampleDb))) ∧
    ((sampleState 1).slides.length < 10 ∧
      findProject sampleDb 7 3 = some ⟨7, 3⟩ ∧
      ((applyEditorOp (.add (some 3) 7 200 5 true) (sampleState 1)
            sampleDb).1.slides =
          (sampleState 1).slides ++
            [serverCreatedSlide 200 5 (addRequestBody (sampleState 1))] ∧
        (serverCreatedSlide 200 5 (addRequestBody (sampleState 1))).slide_number =
          (sampleState 1).slides.length + 1 ∧
        (serverCreatedSlide 200 5 (addRequestBody (sampleState 1))).content =
          [] ∧
        (applyEditorOp (.add (some 3) 7 200 5 true) (sampleState 1)
            sampleDb).1.currentSlideIndex = (sampleState 1).slides.length)) :=
  ⟨⟨by decide,
      slide_cap_invariant.1 [.dup 100 0, .dup 101 0, .add (some 3) 7 102 0 true]
        (sampleState 1) sampleDb (by decide)⟩,
    ⟨by decide,
      slide_cap_invariant.2.1 (some 3) 7 200 0 true (sampleState 10) sampleDb
        (by decide)⟩,
    ⟨by decide, by decide,
      slide_cap_invariant.2.2 3 7 200 5 (sampleState 1) sampleDb ⟨7, 3⟩
        (by decide) (by decide)⟩⟩

/-- Witness for `add_updates_local_only_on_success`: an unauthenticated
request leaves local state unchanged; an owner request appends the created
slide. -/
theorem add_updates_local_only_on_success_witness :
    ((postSlide sampleDb none 7 (addRequestBody (sampleState 1)) 200 0
          true).1.isOk = false ∧
      (addNewSlideCore none 7 200 0 true (sampleState 1) sampleDb).1 =
        sampleState 1) ∧
    (postSlide sampleDb (some 3) 7 (addRequestBody (sampleState 1)) 200 0
        true =
      (.ok (serverCreatedSlide 200 0 (addRequestBody (sampleState 1))),
        { carousel_projects := [⟨7, 3⟩],
          slides :=
            [⟨7, serverCreatedSlide 200 0 (addRequestBody (sampleState 1))⟩] }) ∧
      ((addNewSlideCore (some 3) 7 200 0 true (sampleState 1)
            sampleDb).1.slides =
          (sampleState 1).slides ++
            [serverCreatedSlide 200 0 (addRequestBody (sampleState 1))] ∧
        (addNewSlideCore (some 3) 7 200 0 true (sampleState 1)
            sampleDb).1.currentSlideIndex = (sampleState 1).slides.length)) :=
  ⟨⟨by decide,
      add_updates_local_only_on_success.1 none 7 200 0 true (sampleState 1)
        sampleDb (by decide)⟩,
    ⟨by decide,
      add_updates_local_only_on_success.2 (some 3) 7 200 0 true
        (sampleState 1) sampleDb
        (serverCreatedSlide 200 0 (addRequestBody (sampleState 1)))
        { carousel_projects := [⟨7, 3⟩],
          slides :=
            [⟨7, serverCreatedSlide 200 0 (addRequestBody (sampleState 1))⟩] }
        (by decide)⟩⟩

/-- Witness for `delete_slide_spec` on states with 1 and 3 slides. -/
theorem delete_slide_spec_witness :
    ((sampleState 1).slides.length = 1 ∧
      deleteCurrentSlideOp (sampleState 1) sampleDb =
        (sampleState 1, sampleDb)) ∧
    (1 < (sampleState 3).slides.length ∧
      (sampleState 3).currentSlide = some (sampleSlide 0) ∧
      ((sampleState 3).slides.map Slide.id).Nodup ∧
      ((deleteCurrentSlideOp (sampleState 3) sampleDb).1.slides =
          (sampleState 3).slides.take (sampleState 3).currentSlideIndex ++
            (sampleState 3).slides.drop
              ((sampleState 3).currentSlideIndex + 1) ∧
        (deleteCurrentSlideOp (sampleState 3) sampleDb).1.currentSlideIndex =
          (sampleState 3).currentSlideIndex - 1 ∧
        (deleteCurrentSlideOp (sampleState 3) sampleDb).1.currentSlideIndex <
          (deleteCurrentSlideOp (sampleState 3) sampleDb).1.slides.length)) :=
  ⟨⟨by decide, delete_slide_spec.1 (sampleState 1) sampleDb (by decide)⟩,
    ⟨by decide, by decide, by decide,
      delete_slide_spec.2 (sampleState 3) sampleDb (sampleSlide 0)
        (by decide) (by decide) (by decide)⟩⟩

/-- Witness for `create_slide_access_control`: a non-owner gets the same
not-found answer as for an absent project, an unauthenticated caller gets
unauthorized, and an owner request inserts a row. -/
theorem create_slide_access_control_witness :
    ((∀ p ∈ sampleDb.carousel_projects, ¬(p.id = 7 ∧ p.user_id = 99)) ∧
      postSlide sampleDb (some 99) 7 (addRequestBody (sampleState 1)) 200 0
          true = (.notFound, sampleDb)) ∧
    (postSlide sampleDb none 7 (addRequestBody (sampleState 1)) 200 0 true =
      (.unauthorized, sampleDb)) ∧
    ((postSlide sampleDb (some 3) 7 (addRequestBody (sampleState 1)) 200 0
          true).2.slides ≠ sampleDb.slides ∧
      ∃ u p, (some 3 : Option Nat) = some u ∧
        findProject sampleDb 7 u = some p) :=
  ⟨⟨by decide,
      create_slide_access_control.1 sampleDb 99 7
        (addRequestBody (sampleState 1)) 200 0 true (by decide)⟩,
    create_slide_access_control.2.1 sampleDb 7
      (addRequestBody (sampleState 1)) 200 0 true,
    ⟨by decide,
      create_slide_access_control.2.2.2 sampleDb (some 3) 7
        (addRequestBody (sampleState 1)) 200 0 true (by decide)⟩⟩

/-- Witness for `char_count_tracks_content`: the invariant holds after an
edit of a concrete two-slide state. -/
theorem char_count_tracks_content_witness :
    (∀ s ∈ (sampleState 2).slides, SlideWf s) ∧
    ∀ s ∈ (applyEditorOp (.edit "hi".toList 9) (sampleState 2)
        sampleDb).1.slides, SlideWf s :=
  ⟨by decide,
    char_count_tracks_content.2.2 (.edit "hi".toList 9) (sampleState 2)
      sampleDb (by decide)⟩

end Wordwise
